import Mathlib

/-
Verification of the orbit lifecycle orchestrator (carlknutson/orbit).

This file gives a shallow embedding of the core logic of the repository:
  - `slugify` and `sync_untracked_to_worktree` from src/orbit/worktree.py,
  - `assign_ports` from src/orbit/ports.py,
  - the `State` store from src/orbit/state.py,
  - the `Planet` / `Orbit` data model from src/orbit/models.py,
  - the `launch` and `destroy` orchestrators from src/orbit/session.py,
and proves or refutes the claims of the specification against it.

External collaborators (the git and tmux command-line tools, the file
system, interactive prompts) are modelled as oracle fields of environment
records: each fallible external call is a field returning `Except String`
carrying the tool's diagnostic text exactly as the Python wrapper would
raise it (`WorktreeError` / `TmuxError` / `click.ClickException`), and each
boolean probe is a `Bool`-valued field.  Python dictionaries are modelled
as association lists with Python's insertion-order update semantics.
-/

set_option autoImplicit false

namespace OrbitSpec

/-! ## Python `dict` model: association lists with insert-or-update semantics -/

/-- Python `d.get(k)`: the value stored under the first (unique) matching key. -/
def dict_get {α β : Type} [DecidableEq α] (l : List (α × β)) (k : α) : Option β :=
  match l with
  | [] => none
  | (k', v) :: rest => if k' = k then some v else dict_get rest k

/-- Python `d[k] = v`: replace the value in place if the key is present
(keeping its position, as CPython dicts do), otherwise append the pair. -/
def dict_set {α β : Type} [DecidableEq α] (l : List (α × β)) (k : α) (v : β) :
    List (α × β) :=
  match l with
  | [] => [(k, v)]
  | (k', v') :: rest =>
      if k' = k then (k, v) :: rest else (k', v') :: dict_set rest k v

/-- Python `d.pop(k, None)`: drop the first entry with the given key. -/
def dict_pop {α β : Type} [DecidableEq α] (l : List (α × β)) (k : α) :
    List (α × β) :=
  match l with
  | [] => []
  | (k', v') :: rest =>
      if k' = k then rest else (k', v') :: dict_pop rest k

theorem dict_get_set_self {α β : Type} [DecidableEq α] (l : List (α × β))
    (k : α) (v : β) : dict_get (dict_set l k v) k = some v := by
  induction l with
  | nil => simp [dict_set, dict_get]
  | cons p rest ih =>
      obtain ⟨k', v'⟩ := p
      by_cases h : k' = k <;> simp [dict_set, dict_get, h, ih]

theorem dict_get_mem_keys {α β : Type} [DecidableEq α] {l : List (α × β)} {k : α}
    (h : (dict_get l k).isSome) : k ∈ l.map Prod.fst := by
  induction l with
  | nil => simp [dict_get] at h
  | cons p rest ih =>
      obtain ⟨k', v'⟩ := p
      by_cases hk : k' = k
      · simp [hk]
      · simp [dict_get, hk] at h
        simpa using Or.inr (ih h)

/-! ## Data model (src/orbit/models.py)

`Pane`, `Window`, `Planet` and `Orbit` are pydantic models.  Note that in
the source, `Planet` declares the fields `name`, `path`, `description`,
`worktree_base`, `env` and `windows` — it does NOT declare a
`sync_untracked` field, although src/orbit/session.py line 78 reads
`planet.sync_untracked` and the repository's own tests construct planets
with a `sync_untracked` keyword.  Timestamps are abstracted to `Nat`. -/

structure Pane where
  name : String
  command : Option String := none
  directory : String := "."
  ports : List Nat := []
deriving Repr, DecidableEq

structure Window where
  name : String
  command : Option String := none
  ports : List Nat := []
  panes : List Pane := []
deriving Repr, DecidableEq

structure Planet where
  name : String
  path : String
  description : Option String := none
  worktree_base : String
  env : List (String × String) := []
  windows : List Window := []
deriving Repr, DecidableEq

structure Orbit where
  name : String
  planet : String
  branch : String
  worktree : String
  tmux_session : String
  ports : List (Nat × Nat) := []
  created_at : Nat := 0
deriving Repr, DecidableEq

/-- Single quote character, used to build the user-facing messages of the
source without writing a quote character in this file. -/
def sq : Char := Char.ofNat 39

/-- Wrap a string in single quotes, as the f-strings of the source do. -/
def quoted (s : String) : String :=
  String.singleton sq ++ s ++ String.singleton sq

/-! ## Path helpers

`pathlib.Path` operations used by the orchestrator, modelled over strings
split at the component separator.  `expanduser` is modelled as the
identity (no home-relative paths appear in any claim). -/

/-- Split a character list at every slash character. -/
def splitSlash : List Char → List (List Char)
  | [] => [[]]
  | c :: rest =>
      if c = '/' then [] :: splitSlash rest
      else
        match splitSlash rest with
        | [] => [[c]]
        | g :: gs => (c :: g) :: gs

/-- Components of a path string. -/
def pathParts (p : String) : List String :=
  (splitSlash p.data).map List.asString

/-- Python `Path(p).name`: the final path component. -/
def pathName (p : String) : String :=
  (pathParts p).getLastD ""

/-- Python `Path(p).parent`, as a string. -/
def pathParent (p : String) : String :=
  String.intercalate "/" ((pathParts p).dropLast)

/-- The `slug` property of `Planet` (src/orbit/models.py lines 29-31):
the final component of the planet's path. -/
def Planet.slug (p : Planet) : String := pathName p.path

/-! ## `slugify` (src/orbit/worktree.py lines 11-17)

`slugify` lowercases, maps `/` to `-`, maps every character outside
`[a-z0-9-]` to `-`, collapses runs of `-`, strips leading and trailing
`-`, and finally truncates to 40 characters — in exactly that order.
Python's full-unicode `str.lower` is modelled by `Char.toLower`
(ASCII-only); every character on which the two differ is replaced by `-`
in the very next step unless its lowercase form is itself in `[a-z0-9-]`,
which does not affect any property proved below. -/

/-- Whether a character is in the class `[a-z0-9-]` of the regex
`[^a-z0-9-]` used by `slugify`. -/
def allowedChar (c : Char) : Bool :=
  (97 ≤ c.toNat && c.toNat ≤ 122) || (48 ≤ c.toNat && c.toNat ≤ 57) ||
    c.toNat = 45

/-- Step `slug.replace("/", "-")`. -/
def slashToDash (c : Char) : Char := if c = '/' then '-' else c

/-- Step `re.sub(r"[^a-z0-9-]", "-", slug)`, per character. -/
def subDash (c : Char) : Char := if allowedChar c then c else '-'

/-- Step `re.sub(r"-+", "-", slug)`: collapse each maximal run of hyphens
to a single hyphen. -/
def collapseDash : List Char → List Char
  | [] => []
  | [c] => [c]
  | a :: b :: rest =>
      if a = '-' && b = '-' then collapseDash (b :: rest)
      else a :: collapseDash (b :: rest)

/-- Step `slug.strip("-")`, leading side. -/
def dropLeadDash (l : List Char) : List Char := l.dropWhile (fun c => c = '-')

/-- Step `slug.strip("-")`, trailing side: remove the maximal run of
hyphens at the end of the list (stated recursively rather than via
`reverse` so that the proofs below are direct structural inductions). -/
def dropTrailDash : List Char → List Char
  | [] => []
  | c :: rest =>
      match dropTrailDash rest with
      | [] => if c = '-' then [] else [c]
      | r => c :: r

/-- `slugify(branch)` from src/orbit/worktree.py lines 11-17. -/
def slugify (branch : String) : String :=
  let s1 := branch.data.map Char.toLower
  let s2 := s1.map slashToDash
  let s3 := s2.map subDash
  let s4 := collapseDash s3
  let s5 := dropTrailDash (dropLeadDash s4)
  (s5.take 40).asString

/-! ## The State store (src/orbit/state.py)

`State` holds `orbits: dict[str, Orbit]`, mutated only by `add` (which
stores under `orbit.name`), `remove` and read by `get`. -/

structure State where
  orbits : List (String × Orbit) := []
deriving Repr, DecidableEq

/-- `State.add` (src/orbit/state.py lines 19-20): `self.orbits[orbit.name] = orbit`. -/
def State.add (st : State) (o : Orbit) : State :=
  ⟨dict_set st.orbits o.name o⟩

/-- `State.remove` (src/orbit/state.py lines 22-23): `self.orbits.pop(name, None)`. -/
def State.remove (st : State) (name : String) : State :=
  ⟨dict_pop st.orbits name⟩

/-- `State.get` (src/orbit/state.py lines 25-26): `self.orbits.get(name)`. -/
def State.get (st : State) (name : String) : Option Orbit :=
  dict_get st.orbits name

/-! ## Decimal rendering of naturals

Python renders `n` in `f"{branch_slug}-{n}"` in decimal.  The model below
is a fuel-structured decimal printer (fuel `n` suffices because `n / 10`
strictly decreases), together with the decoding round trip that yields
injectivity — which the auto-numbering termination argument needs. -/

/-- Little-endian decimal digits of `n` (empty for `0`), with fuel. -/
def toDigitsLE : Nat → Nat → List Nat
  | 0, _ => []
  | fuel + 1, n => if n = 0 then [] else n % 10 :: toDigitsLE fuel (n / 10)

/-- Decode little-endian decimal digits. -/
def fromDigitsLE : List Nat → Nat
  | [] => 0
  | d :: ds => d + 10 * fromDigitsLE ds

theorem fromDigitsLE_toDigitsLE (fuel n : Nat) (h : n ≤ fuel) :
    fromDigitsLE (toDigitsLE fuel n) = n := by
  induction fuel generalizing n with
  | zero =>
      interval_cases n
      simp [toDigitsLE, fromDigitsLE]
  | succ f ih =>
      by_cases h0 : n = 0
      · simp [toDigitsLE, fromDigitsLE, h0]
      · have hdiv : n / 10 ≤ f := by
          have : n / 10 < n := Nat.div_lt_self (Nat.pos_of_ne_zero h0) (by omega)
          omega
        simp only [toDigitsLE, h0, if_false, fromDigitsLE, ih _ hdiv]
        omega

/-- The character of a decimal digit. -/
def digitToChar : Nat → Char
  | 0 => '0'
  | 1 => '1'
  | 2 => '2'
  | 3 => '3'
  | 4 => '4'
  | 5 => '5'
  | 6 => '6'
  | 7 => '7'
  | 8 => '8'
  | _ => '9'

theorem digitToChar_inj {a b : Nat} (ha : a < 10) (hb : b < 10)
    (h : digitToChar a = digitToChar b) : a = b := by
  revert h
  interval_cases a <;> interval_cases b <;> decide

theorem toDigitsLE_lt_ten (fuel n : Nat) : ∀ d ∈ toDigitsLE fuel n, d < 10 := by
  induction fuel generalizing n with
  | zero => simp [toDigitsLE]
  | succ f ih =>
      by_cases h0 : n = 0
      · simp [toDigitsLE, h0]
      · simp only [toDigitsLE, h0, if_false, List.mem_cons]
        rintro d (rfl | hd)
        · omega
        · exact ih _ d hd

theorem map_digitToChar_inj :
    ∀ (l1 l2 : List Nat), (∀ d ∈ l1, d < 10) → (∀ d ∈ l2, d < 10) →
      l1.map digitToChar = l2.map digitToChar → l1 = l2 := by
  intro l1
  induction l1 with
  | nil => intro l2 _ _ h; cases l2 <;> simp_all
  | cons a l ih =>
      intro l2 h1 h2 h
      cases l2 with
      | nil => simp at h
      | cons b m =>
          simp only [List.map_cons, List.cons.injEq] at h
          have hab : a = b :=
            digitToChar_inj (h1 a (by simp)) (h2 b (by simp)) h.1
          have := ih m (fun d hd => h1 d (by simp [hd]))
            (fun d hd => h2 d (by simp [hd])) h.2
          simp [hab, this]

/-- Decimal string of a natural number, as Python's `str(n)` renders it. -/
def natStr (n : Nat) : String :=
  if n = 0 then "0" else ((toDigitsLE n n).reverse.map digitToChar).asString

theorem toDigitsLE_ne_nil {n : Nat} (h : n ≠ 0) : toDigitsLE n n ≠ [] := by
  cases n with
  | zero => omega
  | succ m => simp [toDigitsLE]

theorem natStr_inj : ∀ {a b : Nat}, natStr a = natStr b → a = b := by
  have key : ∀ a b : Nat, a ≠ 0 → b ≠ 0 →
      (toDigitsLE a a).reverse.map digitToChar =
        (toDigitsLE b b).reverse.map digitToChar → a = b := by
    intro a b ha hb h
    have h2 : (toDigitsLE a a).reverse = (toDigitsLE b b).reverse :=
      map_digitToChar_inj _ _
        (fun d hd => toDigitsLE_lt_ten a a d (List.mem_reverse.mp hd))
        (fun d hd => toDigitsLE_lt_ten b b d (List.mem_reverse.mp hd)) h
    have h3 : toDigitsLE a a = toDigitsLE b b := by
      have := congrArg List.reverse h2
      simpa using this
    calc a = fromDigitsLE (toDigitsLE a a) :=
            (fromDigitsLE_toDigitsLE a a le_rfl).symm
      _ = fromDigitsLE (toDigitsLE b b) := by rw [h3]
      _ = b := fromDigitsLE_toDigitsLE b b le_rfl
  intro a b h
  by_cases ha : a = 0 <;> by_cases hb : b = 0
  · omega
  · exfalso
    simp only [natStr, ha, if_true, hb, if_false] at h
    have : (toDigitsLE b b).reverse.map digitToChar = ['0'] := by
      have := congrArg String.data h
      simpa [List.asString] using this.symm
    have hb1 : toDigitsLE b b = [0] := by
      have := map_digitToChar_inj (toDigitsLE b b).reverse [0]
        (fun d hd => toDigitsLE_lt_ten b b d (List.mem_reverse.mp hd))
        (by simp) (by simpa [digitToChar] using this)
      have h4 := congrArg List.reverse this
      simpa using h4
    have := fromDigitsLE_toDigitsLE b b le_rfl
    rw [hb1] at this
    simp [fromDigitsLE] at this
    omega
  · exfalso
    simp only [natStr, ha, if_false, hb, if_true] at h
    have : (toDigitsLE a a).reverse.map digitToChar = ['0'] := by
      have := congrArg String.data h
      simpa [List.asString] using this
    have ha1 : toDigitsLE a a = [0] := by
      have := map_digitToChar_inj (toDigitsLE a a).reverse [0]
        (fun d hd => toDigitsLE_lt_ten a a d (List.mem_reverse.mp hd))
        (by simp) (by simpa [digitToChar] using this)
      have h4 := congrArg List.reverse this
      simpa using h4
    have := fromDigitsLE_toDigitsLE a a le_rfl
    rw [ha1] at this
    simp [fromDigitsLE] at this
    omega
  · simp only [natStr, ha, hb, if_false] at h
    have := congrArg String.data h
    simp only [List.asString] at this
    exact key a b ha hb this

/-! ## Launch name resolution (src/orbit/session.py lines 32-54) -/

/-- The name `f"{branch_slug}-{n}"` tried by the auto-numbering loop. -/
def numberedName (slug : String) (n : Nat) : String :=
  slug ++ "-" ++ natStr n

theorem numberedName_inj (slug : String) {a b : Nat}
    (h : numberedName slug a = numberedName slug b) : a = b := by
  apply natStr_inj
  have hd := congrArg String.data h
  simp only [numberedName, String.data_append] at hd
  have := List.append_cancel_left hd
  exact String.ext this

/-- The loop `while state.get(f"{branch_slug}-{n}") is not None: n += 1`
(src/orbit/session.py lines 51-53), structured on fuel.  `findFreeN st
slug fuel n` returns the first `m ≥ n` with `m < n + fuel` such that
`slug-m` is not a key of the state, if one exists. -/
def findFreeN (st : State) (slug : String) : Nat → Nat → Option Nat
  | 0, _ => none
  | fuel + 1, n =>
      if (st.get (numberedName slug n)).isSome then findFreeN st slug fuel (n + 1)
      else some n

theorem findFreeN_spec (st : State) (slug : String) :
    ∀ (fuel n m : Nat), findFreeN st slug fuel n = some m →
      n ≤ m ∧ st.get (numberedName slug m) = none ∧
        ∀ k, n ≤ k → k < m → (st.get (numberedName slug k)).isSome := by
  intro fuel
  induction fuel with
  | zero => simp [findFreeN]
  | succ f ih =>
      intro n m h
      rw [findFreeN] at h
      by_cases hn : (st.get (numberedName slug n)).isSome
      · rw [if_pos hn] at h
        obtain ⟨h1, h2, h3⟩ := ih (n + 1) m h
        refine ⟨by omega, h2, fun k hk1 hk2 => ?_⟩
        by_cases hkn : k = n
        · rwa [hkn]
        · exact h3 k (by omega) hk2
      · rw [if_neg hn] at h
        rw [Option.some.injEq] at h
        subst h
        refine ⟨le_rfl, ?_, fun k hk1 hk2 => by omega⟩
        cases hget : st.get (numberedName slug n) <;> simp_all

theorem findFreeN_total (st : State) (slug : String) :
    ∀ (fuel n : Nat),
      (∃ m, n ≤ m ∧ m < n + fuel ∧ st.get (numberedName slug m) = none) →
      (findFreeN st slug fuel n).isSome := by
  intro fuel
  induction fuel with
  | zero => rintro n ⟨m, h1, h2, _⟩; omega
  | succ f ih =>
      rintro n ⟨m, h1, h2, h3⟩
      rw [findFreeN]
      by_cases hn : (st.get (numberedName slug n)).isSome
      · rw [if_pos hn]
        apply ih
        refine ⟨m, ?_, by omega, h3⟩
        rcases Nat.eq_or_lt_of_le h1 with rfl | h
        · rw [h3] at hn; simp at hn
        · omega
      · rw [if_neg hn]
        simp

/-- Some numbered name with index in `[2, 2 + |orbits| + 1)` is always
free: there are `|orbits| + 1` pairwise distinct candidate names and only
`|orbits|` keys. -/
theorem exists_free_numberedName (st : State) (slug : String) :
    ∃ m, 2 ≤ m ∧ m < 2 + (st.orbits.length + 1) ∧
      st.get (numberedName slug m) = none := by
  by_contra hcon
  push_neg at hcon
  set L := st.orbits.length with hL
  have htaken : ∀ i : Fin (L + 1), (st.get (numberedName slug (2 + i))).isSome := by
    intro i
    have h1 : 2 ≤ 2 + (i : Nat) := by omega
    have h2 : 2 + (i : Nat) < 2 + (L + 1) := by omega
    have := hcon (2 + i) h1 h2
    cases hget : st.get (numberedName slug (2 + i)) <;> simp_all
  classical
  let f : Fin (L + 1) → String := fun i => numberedName slug (2 + i)
  have hinj : Function.Injective f := by
    intro i j hij
    have := numberedName_inj slug hij
    exact Fin.ext (by omega)
  have hsub : (Finset.univ : Finset (Fin (L + 1))).image f ⊆
      (st.orbits.map Prod.fst).toFinset := by
    intro s hs
    simp only [Finset.mem_image] at hs
    obtain ⟨i, _, rfl⟩ := hs
    exact List.mem_toFinset.mpr (dict_get_mem_keys (htaken i))
  have hcard := Finset.card_le_card hsub
  rw [Finset.card_image_of_injective _ hinj, Finset.card_univ, Fintype.card_fin] at hcard
  have hle : (st.orbits.map Prod.fst).toFinset.card ≤ L := by
    calc (st.orbits.map Prod.fst).toFinset.card
        ≤ (st.orbits.map Prod.fst).length := List.toFinset_card_le _
      _ = L := by simp [hL]
  omega

/-- The auto-numbering applied when the slug is already taken
(src/orbit/session.py lines 50-54): the `none` branch is unreachable by
`exists_free_numberedName` and `findFreeN_total`. -/
def autoNumberName (st : State) (slug : String) : String :=
  match findFreeN st slug (st.orbits.length + 1) 2 with
  | some n => numberedName slug n
  | none => slug

/-- The "already exists" collision error of `launch` (src/orbit/session.py
lines 37-41), raised when a live tmux session backs the colliding record. -/
def already_exists_error (nm : String) : String :=
  "An orbit named " ++ quoted nm ++ " already exists. " ++
    "Use a different --name, or " ++ quoted ("orbit destroy " ++ nm) ++
    " to tear it down first."

/-- The "stale" collision error of `launch` (src/orbit/session.py lines
43-47), raised when no live tmux session backs the colliding record. -/
def stale_error (nm : String) : String :=
  "An orbit named " ++ quoted nm ++
    " exists but its tmux session is no longer live (stale). " ++
    "Run " ++ quoted ("orbit destroy " ++ nm) ++ " to clean it up first."

/-- Name resolution of `launch` (src/orbit/session.py lines 32-54): an
explicit name collides fatally with an existing orbit — with distinct
messages depending on whether a live tmux session backs it — while the
unnamed path falls back to the branch slug with auto-numbering. -/
def launchNameResolve (name : Option String) (sessionExists : String → Bool)
    (st : State) (branch_slug : String) : Except String String :=
  match name with
  | some nm =>
      match st.get nm with
      | some _ =>
          if sessionExists nm then .error (already_exists_error nm)
          else .error (stale_error nm)
      | none => .ok nm
  | none =>
      if (st.get branch_slug).isSome then .ok (autoNumberName st branch_slug)
      else .ok branch_slug

/-! ## The orchestrator (src/orbit/session.py)

`launch` and `destroy` are modelled as pure functions from an environment
of oracle results for each external call, returning the outcome
(`Except`, with the raised exception's message as the error), the final
in-memory `State`, and a trace of the externally visible actions in the
order in which the source performs them.  `save_state` invocations appear
in the trace as `Event.saveState` carrying the snapshot written. -/

inductive Event where
  | echo (msg : String)
  | mkdir (path : String)
  | createWorktree (worktreePath branch : String)
  | syncUntracked (patterns : List String)
  | newSession (name startDir : String)
  | saveState (snapshot : State)
  | killSession (name : String)
  | confirmPrompt (msg : String)
  | removeWorktree (repo worktreePath : String)
  | attachSession (name : String)
  | switchClient (name : String)
deriving Repr, DecidableEq

/-- The snapshots written to the state file during a run. -/
def savedStates (evs : List Event) : List State :=
  evs.filterMap fun e =>
    match e with
    | .saveState s => some s
    | _ => none

/-- Whether an event creates a worktree or a terminal session. -/
def Event.isCreation : Event → Bool
  | .createWorktree _ _ => true
  | .newSession _ _ => true
  | _ => false

/-- Oracle results for every external call `launch` makes, in source
order.  `detect_planet` stands for `config.detect_planet` (fallible:
`ConfigError`), the `worktree.*` fields for the git wrappers (fallible
ones raise `WorktreeError` carrying git's diagnostic), and the tmux
fields for the tmux wrappers (`TmuxError`). -/
structure LaunchEnv where
  detect_planet : Except String Planet
  detect_branch : Except String String
  choose_remote : Except String (Option String × Option String)
  session_exists : String → Bool
  mkdir_base : Except String Unit
  has_uncommitted_changes : Bool
  branch_exists_locally : String → Bool
  remote_branch_exists : String → String → Bool
  detect_default_branch : String → Option String
  create_worktree : String → String → Option String → Option String →
    Except String Unit
  sync_untracked_to_worktree : List String → Except String (List String)
  new_session : String → String → Except String Unit
  tmux_set_option : String → String → String → Except String Unit
  tmux_set_environment : String → String → String → Except String Unit
  setup_windows : Except String Unit
  inside_tmux : Bool
  switch_client : String → Except String Unit
  now : Nat

/-- Reading `planet.sync_untracked` (src/orbit/session.py line 78).  The
`Planet` model of src/orbit/models.py declares no `sync_untracked` field,
and pydantic models raise `AttributeError` for undeclared attributes, so
this access always fails. -/
def Planet.sync_untracked_read (_p : Planet) :
    Except String (Option (List String)) :=
  .error ("AttributeError: " ++ quoted "Planet" ++
    " object has no attribute " ++ quoted "sync_untracked")

/-- Sequentially set every planet-level environment variable on the
session (src/orbit/session.py lines 96-97), stopping at the first failure. -/
def setEnvAll (f : String → String → Except String Unit) :
    List (String × String) → Except String Unit
  | [] => .ok ()
  | (k, v) :: rest =>
      match f k v with
      | .error e => .error e
      | .ok _ => setEnvAll f rest

/-- The tmux configuration block of `launch` (src/orbit/session.py lines
92-100): the three `set_option` calls, the environment injection, the
fixed task-identifier variable, and `setup_windows`. -/
def tmuxConfigure (env : LaunchEnv) (orbit_name branch : String)
    (planetEnv : List (String × String)) : Except String Unit :=
  match env.tmux_set_option orbit_name "mouse" "on" with
  | .error e => .error e
  | .ok _ =>
  match env.tmux_set_option orbit_name "status-left" (" " ++ orbit_name ++ " ") with
  | .error e => .error e
  | .ok _ =>
  match env.tmux_set_option orbit_name "status-right" (" " ++ branch ++ " ") with
  | .error e => .error e
  | .ok _ =>
  match setEnvAll (env.tmux_set_environment orbit_name) planetEnv with
  | .error e => .error e
  | .ok _ =>
  match env.tmux_set_environment orbit_name "CLAUDE_CODE_TASK_LIST_ID" orbit_name with
  | .error e => .error e
  | .ok _ => env.setup_windows

/-- The events echoing the non-origin-remote notice, when there is one. -/
def remoteNoticeEvents (remote_notice : Option String) : List Event :=
  match remote_notice with
  | some n => [.echo n]
  | none => []

/-- The worktree namespace directory `planet_dir.parent / f"{planet_dir.name}.wt"`
(src/orbit/session.py lines 56-57). -/
def worktreeBasePath (planet : Planet) : String :=
  pathParent planet.path ++ "/" ++ (pathName planet.path ++ ".wt")

/-- The worktree location `worktree_base / orbit_name`
(src/orbit/session.py line 58). -/
def worktreePathOf (planet : Planet) (orbit_name : String) : String :=
  worktreeBasePath planet ++ "/" ++ orbit_name

/-- `is_new_branch` (src/orbit/session.py lines 66-68): the branch exists
neither locally nor (when a remote was chosen) on the remote. -/
def isNewBranch (env : LaunchEnv) (branch : String) (remote : Option String) :
    Bool :=
  !env.branch_exists_locally branch &&
    !(match remote with
      | some r => env.remote_branch_exists r branch
      | none => false)

/-- The base branch after the default-branch auto-detection
(src/orbit/session.py lines 70-71). -/
def resolvedBase (env : LaunchEnv) (inb : Bool) (base? remote : Option String) :
    Option String :=
  match inb, base?, remote with
  | true, none, some r => env.detect_default_branch r
  | _, b, _ => b

/-- Run one fallible external call: a failure propagates as the fatal
result of the whole operation, with the state and the trace as they stand
at that point (no exception in `launch`/`destroy` is caught except where
modelled explicitly). -/
def step {α : Type} (r : Except String α) (st : State) (evs : List Event)
    (k : α → Except String Unit × State × List Event) :
    Except String Unit × State × List Event :=
  match r with
  | .error e => (.error e, st, evs)
  | .ok a => k a

/-- `launch` (src/orbit/session.py lines 12-117), step for step.  Every
uncaught exception ends the run as `.error` with the exception's message;
the returned `State` is the in-memory store after the run and the event
list records the externally visible actions in order. -/
def launch (env : LaunchEnv) (branch? name? base? : Option String)
    (st : State) : Except String Unit × State × List Event :=
  step env.detect_planet st [] fun planet =>
  step (match branch? with | some b => Except.ok b | none => env.detect_branch)
    st [] fun branch =>
  step env.choose_remote st [] fun rp =>
  let remote := rp.1
  let evs0 := remoteNoticeEvents rp.2
  step (launchNameResolve name? env.session_exists st (slugify branch))
    st evs0 fun orbit_name =>
  let worktree_base := worktreeBasePath planet
  let worktree_path := worktreePathOf planet orbit_name
  step env.mkdir_base st evs0 fun _ =>
  let evs1 := evs0 ++ [.mkdir worktree_base]
  let evs2 := if env.has_uncommitted_changes then
      evs1 ++ [.echo "Note: working tree has uncommitted changes (not transferred to worktree)"]
    else evs1
  let is_new_branch := isNewBranch env branch remote
  let base1 := resolvedBase env is_new_branch base? remote
  let evs3 := match is_new_branch, base1 with
    | true, some b =>
        evs2 ++ [.echo ("Branching " ++ quoted branch ++ " from " ++ quoted b)]
    | _, _ => evs2
  step (env.create_worktree worktree_path branch remote base1) st evs3 fun _ =>
  let evs4 := evs3 ++ [.createWorktree worktree_path branch]
  step (Planet.sync_untracked_read planet) st evs4 fun sync_field =>
  let patterns : List String :=
    match sync_field with
    | none => [".*"]
    | some ps => ps
  step (if patterns.isEmpty then Except.ok ([] : List String)
        else env.sync_untracked_to_worktree patterns) st evs4 fun synced =>
  let evs5 := if patterns.isEmpty then evs4 else evs4 ++ [.syncUntracked patterns]
  let evs6 := if synced.isEmpty then evs5
    else evs5 ++ [.echo ("Synced " ++ natStr synced.length ++
      " untracked path(s) into worktree")]
  step (env.new_session orbit_name worktree_path) st evs6 fun _ =>
  let evs7 := evs6 ++ [.newSession orbit_name worktree_path]
  step (tmuxConfigure env orbit_name branch planet.env) st evs7 fun _ =>
  let orbit : Orbit :=
    { name := orbit_name, planet := planet.slug, branch := branch,
      worktree := worktree_path, tmux_session := orbit_name,
      ports := [], created_at := env.now }
  let st' := st.add orbit
  let evs8 := evs7 ++ [.saveState st', .echo ("\nLaunched " ++ orbit_name ++ "\n")]
  if env.inside_tmux then
    step (env.switch_client orbit_name) st' (evs8 ++ [.switchClient orbit_name])
      fun _ => (.ok (), st', evs8 ++ [.switchClient orbit_name])
  else
    (.ok (), st', evs8 ++ [.attachSession orbit_name])

/-- Oracle results for the external calls of `destroy`. -/
structure DestroyEnv where
  session_exists : Bool
  kill_session : Except String Unit
  worktree_exists : Bool
  has_uncommitted_changes : Bool
  confirm_accepted : Bool
  get_main_repo_path : Except String String
  remove_worktree : String → String → Except String Unit

/-- The fatal lookup error of `destroy` (src/orbit/session.py line 127). -/
def no_orbit_error (nm : String) : String :=
  "No orbit named " ++ quoted nm ++ " found."

/-- The confirmation prompt of `destroy` (src/orbit/session.py lines 135-136). -/
def confirm_msg (orbit : Orbit) : String :=
  "Worktree at " ++ orbit.worktree ++ " has uncommitted changes. Remove anyway?"

/-- The non-fatal warning `destroy` prints when worktree removal fails
(src/orbit/session.py line 143). -/
def remove_warning (e : String) : String :=
  "Warning: failed to remove worktree: " ++ e

/-- The notice `destroy` prints when the recorded worktree path no longer
exists on disk (src/orbit/session.py line 145). -/
def worktree_missing_msg (orbit : Orbit) : String :=
  "Worktree directory " ++ orbit.worktree ++ " not found; skipping removal."

/-- The `try` block of `destroy` (src/orbit/session.py lines 139-143):
resolve the owning repository and remove the worktree; a `WorktreeError`
from either call is caught and downgraded to a warning echo. -/
def destroyRemovePhase (orbit : Orbit) (env : DestroyEnv) : List Event :=
  match env.get_main_repo_path with
  | .error e => [.echo (remove_warning e)]
  | .ok main_repo =>
      match env.remove_worktree main_repo orbit.worktree with
      | .error e => [.echo (remove_warning e)]
      | .ok _ => [.removeWorktree main_repo orbit.worktree]

/-- The unconditional bookkeeping tail of `destroy` (src/orbit/session.py
lines 147-149): remove the orbit from the state, persist, report. -/
def destroyFinish (orbit_name : String) (st : State) (evs : List Event) :
    Except String Unit × State × List Event :=
  let st' := st.remove orbit_name
  (.ok (), st', evs ++ [.saveState st', .echo ("Destroyed " ++ orbit_name)])

/-- `destroy` (src/orbit/session.py lines 120-149), step for step.  A
refused confirmation is `click.Abort`, modelled as the error
`"Aborted!"` (the text click prints for it). -/
def destroy (orbit_name : String) (st : State) (env : DestroyEnv) :
    Except String Unit × State × List Event :=
  match st.get orbit_name with
  | none => (.error (no_orbit_error orbit_name), st, [])
  | some orbit =>
    let evs0 : List Event :=
      if env.session_exists then [.killSession orbit_name] else []
    match (if env.session_exists then env.kill_session else .ok ()) with
    | .error e => (.error e, st, evs0)
    | .ok _ =>
      if env.worktree_exists then
        let evsConf : List Event :=
          if env.has_uncommitted_changes then [.confirmPrompt (confirm_msg orbit)]
          else []
        if env.has_uncommitted_changes && !env.confirm_accepted then
          (.error "Aborted!", st, evs0 ++ evsConf)
        else
          destroyFinish orbit_name st
            (evs0 ++ evsConf ++ destroyRemovePhase orbit env)
      else
        destroyFinish orbit_name st (evs0 ++ [.echo (worktree_missing_msg orbit)])

/-! ## Untracked-file mirroring (src/orbit/worktree.py lines 200-253)

Paths are modelled as their component lists (`Path(entry).parts`).  The
set of untracked files reported by `git ls-files --others` and the
`dst.exists() or dst.is_symlink()` probe are parameters.  Pattern
matching is `fnmatch.fnmatch(candidate.name, pattern)`: on POSIX this is
`fnmatchcase`, a shell glob over the final component.  The glob model
below covers literals, `*` and `?` (the character-class form `[seq]`
does not occur in any pattern of the spec or tests). -/

/-- Shell-glob match of a pattern against a string (both as char lists),
fuel-structured so that it evaluates by kernel reduction; every step
shrinks `pattern.length + s.length`, so the fuel in `globMatch` below is
always sufficient. -/
def globMatchAux : Nat → List Char → List Char → Bool
  | 0, _, _ => false
  | fuel + 1, pattern, s =>
      match pattern, s with
      | [], [] => true
      | [], _ :: _ => false
      | '*' :: ps, [] => globMatchAux fuel ps []
      | '*' :: ps, c :: cs =>
          globMatchAux fuel ps (c :: cs) || globMatchAux fuel ('*' :: ps) cs
      | '?' :: _, [] => false
      | '?' :: ps, _ :: cs => globMatchAux fuel ps cs
      | _ :: _, [] => false
      | p :: ps, c :: cs => (p = c) && globMatchAux fuel ps cs

/-- Shell-glob match of a pattern against a string. -/
def globMatch (pattern s : List Char) : Bool :=
  globMatchAux (pattern.length + s.length + 1) pattern s

/-- `fnmatch.fnmatch(name, pattern)` on POSIX. -/
def fnmatch (name pattern : String) : Bool :=
  globMatch pattern.data name.data

/-- The candidate list `[Path(*parts[: i + 1]) for i in range(len(parts))]`:
all non-empty component forms of the path, shallowest first. -/
def pathPrefixList (parts : List String) : List (List String) :=
  (List.range parts.length).map fun i => parts.take (i + 1)

/-- The matching loop of `sync_untracked_to_worktree`: the first
(shallowest) candidate whose final component matches some pattern. -/
def matchCandidate (patterns : List String) (parts : List String) :
    Option (List String) :=
  (pathPrefixList parts).find? fun cand =>
    patterns.any fun pat => fnmatch (cand.getLastD "") pat

/-- The entry loop of `sync_untracked_to_worktree`, threading the
`already_synced` set; returns the `synced` result list. -/
def sync_untracked_go (dstExists : List String → Bool) (patterns : List String) :
    List (List String) → List (List String) → List (List String)
  | [], _ => []
  | entry :: rest, already =>
      match matchCandidate patterns entry with
      | none => sync_untracked_go dstExists patterns rest already
      | some matched =>
          if matched ∈ already then sync_untracked_go dstExists patterns rest already
          else
            if dstExists matched then
              sync_untracked_go dstExists patterns rest (matched :: already)
            else
              matched :: sync_untracked_go dstExists patterns rest (matched :: already)

/-- `sync_untracked_to_worktree(source, worktree, patterns)`
(src/orbit/worktree.py lines 200-253), over the untracked-path list
`git ls-files --others` reports and the destination-existence probe. -/
def sync_untracked_to_worktree (untracked : List (List String))
    (patterns : List String) (dstExists : List String → Bool) :
    List (List String) :=
  sync_untracked_go dstExists patterns untracked []

/-! ## The port allocator (src/orbit/ports.py)

`is_port_available` is an OS probe, modelled as an arbitrary predicate.
The unbounded `while` loop of `assign_ports` is modelled with fuel:
`none` stands for a non-terminating (exhausted) probe. -/

/-- The loop `while candidate in in_use or not is_port_available(candidate):
candidate += 1` (src/orbit/ports.py lines 21-23), with fuel. -/
def probePort (avail : Nat → Bool) (in_use : List Nat) :
    Nat → Nat → Option Nat
  | 0, _ => none
  | fuel + 1, cand =>
      if cand ∈ in_use || !avail cand then probePort avail in_use fuel (cand + 1)
      else some cand

/-- The declared-port loop of `assign_ports`, threading `in_use` and the
`assigned` dict. -/
def assign_ports_go (avail : Nat → Bool) (fuel : Nat) :
    List Nat → List Nat → List (Nat × Nat) → Option (List (Nat × Nat))
  | [], _, assigned => some assigned
  | port :: rest, in_use, assigned =>
      match probePort avail in_use fuel port with
      | none => none
      | some cand =>
          assign_ports_go avail fuel rest (cand :: in_use)
            (dict_set assigned port cand)

/-- `assign_ports(declared, claimed)` (src/orbit/ports.py lines 13-27). -/
def assign_ports (declared claimed : List Nat) (avail : Nat → Bool)
    (fuel : Nat) : Option (List (Nat × Nat)) :=
  assign_ports_go avail fuel declared claimed []

/-! ## State persistence (src/orbit/state.py lines 35-69)

A parsed, schema-valid state file is a list of `(key, record)` entries.
`load_state` stores each validated record under the file's key —
`orbits[name] = Orbit(**orbit_data)` keeps the record's own `name` field,
whatever the key says (src/orbit/state.py lines 47-52).  `save_state`
writes each in-memory entry under its dict key with the record serialized
as is (lines 61-66). -/

/-- `load_state` on a parsed, schema-valid file (missing-file and
malformed-JSON handling happens before this point and is out of scope). -/
def load_state (file : List (String × Orbit)) : State := ⟨file⟩

/-- The entries `save_state` writes for a state. -/
def save_state_file (st : State) : List (String × Orbit) := st.orbits

/-- The `State` values the program produces: the empty state, states
reached by `add`/`remove`, and states loaded back from a file that
`save_state` wrote. -/
inductive StateProduced : State → Prop
  | empty : StateProduced ⟨[]⟩
  | add (st : State) (o : Orbit) : StateProduced st → StateProduced (st.add o)
  | remove (st : State) (n : String) : StateProduced st → StateProduced (st.remove n)
  | load_saved (st : State) : StateProduced st →
      StateProduced (load_state (save_state_file st))

/-- The spec's `State` invariant: every key of the orbits mapping equals
the `name` field of the orbit stored under it. -/
def keys_match (st : State) : Bool :=
  st.orbits.all fun p => p.2.name == p.1

/-! ## Properties of the `slugify` pipeline -/

/-- Two adjacent hyphens somewhere in the list. -/
def hasDoubleDash : List Char → Bool
  | [] => false
  | [_] => false
  | a :: b :: rest => (a = '-' && b = '-') || hasDoubleDash (b :: rest)

theorem hasDoubleDash_tail {a : Char} {l : List Char}
    (h : hasDoubleDash (a :: l) = false) : hasDoubleDash l = false := by
  cases l with
  | nil => rfl
  | cons b t =>
      rw [hasDoubleDash, Bool.or_eq_false_iff] at h
      exact h.2

theorem collapseDash_head : ∀ (x : Char) (xs : List Char),
    (collapseDash (x :: xs)).head? = some x := by
  intro x xs
  induction xs generalizing x with
  | nil => rfl
  | cons y ys ih =>
      rw [collapseDash]
      by_cases h : x = '-' && y = '-'
      · rw [if_pos h]
        rw [Bool.and_eq_true, decide_eq_true_iff, decide_eq_true_iff] at h
        rw [ih y, h.1, h.2]
      · rw [if_neg h]
        rfl

theorem mem_collapseDash {c : Char} : ∀ {l : List Char}, c ∈ collapseDash l → c ∈ l
  | [] => by simp [collapseDash]
  | [d] => by simp [collapseDash]
  | a :: b :: rest => by
      rw [collapseDash]
      by_cases h : a = '-' && b = '-'
      · rw [if_pos h]
        intro hm
        exact List.mem_cons_of_mem a (mem_collapseDash hm)
      · rw [if_neg h]
        intro hm
        rcases List.mem_cons.mp hm with rfl | hm
        · exact List.mem_cons_self _ _
        · exact List.mem_cons_of_mem a (mem_collapseDash hm)

theorem hasDoubleDash_collapseDash : ∀ l : List Char,
    hasDoubleDash (collapseDash l) = false
  | [] => rfl
  | [_] => rfl
  | a :: b :: rest => by
      rw [collapseDash]
      by_cases h : a = '-' && b = '-'
      · rw [if_pos h]
        exact hasDoubleDash_collapseDash (b :: rest)
      · rw [if_neg h]
        have hhead := collapseDash_head b rest
        cases hcb : collapseDash (b :: rest) with
        | nil => rfl
        | cons b' t =>
            rw [hcb] at hhead
            have hb : b' = b := by simpa using hhead
            have htail := hasDoubleDash_collapseDash (b :: rest)
            rw [hcb] at htail
            rw [hasDoubleDash, Bool.or_eq_false_iff]
            refine ⟨?_, htail⟩
            rw [hb]
            simpa using h

theorem collapseDash_of_noDoubleDash : ∀ {l : List Char},
    hasDoubleDash l = false → collapseDash l = l
  | [] => fun _ => rfl
  | [_] => fun _ => rfl
  | a :: b :: rest => fun h => by
      rw [hasDoubleDash, Bool.or_eq_false_iff] at h
      rw [collapseDash, if_neg (by simp [h.1]), collapseDash_of_noDoubleDash h.2]

theorem mem_dropLeadDash {c : Char} {l : List Char} (h : c ∈ dropLeadDash l) :
    c ∈ l := by
  induction l with
  | nil => simp [dropLeadDash] at h
  | cons a rest ih =>
      rw [dropLeadDash, List.dropWhile_cons] at h
      by_cases ha : a = '-'
      · rw [if_pos (by simp [ha])] at h
        exact List.mem_cons_of_mem a (ih h)
      · rw [if_neg (by simp [ha])] at h
        exact h

theorem dropLeadDash_head (l : List Char) : (dropLeadDash l).head? ≠ some '-' := by
  induction l with
  | nil => simp [dropLeadDash]
  | cons a rest ih =>
      rw [dropLeadDash, List.dropWhile_cons]
      by_cases h : a = '-'
      · rw [if_pos (by simp [h])]
        exact ih
      · rw [if_neg (by simp [h])]
        simp [h]

theorem hasDoubleDash_dropLeadDash {l : List Char}
    (h : hasDoubleDash l = false) : hasDoubleDash (dropLeadDash l) = false := by
  induction l with
  | nil => exact h
  | cons a rest ih =>
      rw [dropLeadDash, List.dropWhile_cons]
      by_cases ha : a = '-'
      · rw [if_pos (by simp [ha])]
        exact ih (hasDoubleDash_tail h)
      · rw [if_neg (by simp [ha])]
        exact h

theorem dropLeadDash_of_head {l : List Char} (h : l.head? ≠ some '-') :
    dropLeadDash l = l := by
  cases l with
  | nil => rfl
  | cons a rest =>
      have ha : a ≠ '-' := by
        intro hc
        exact h (by rw [hc]; rfl)
      rw [dropLeadDash, List.dropWhile_cons, if_neg (by simp [ha])]

theorem mem_dropTrailDash {c : Char} : ∀ {l : List Char}, c ∈ dropTrailDash l → c ∈ l
  | [] => by simp [dropTrailDash]
  | a :: rest => by
      rw [dropTrailDash]
      cases hr : dropTrailDash rest with
      | nil =>
          by_cases h : a = '-'
          · simp [h]
          · intro hm
            have hc : c = a := by simpa [h] using hm
            simp [hc]
      | cons b t =>
          intro hm
          rcases List.mem_cons.mp hm with rfl | hm
          · exact List.mem_cons_self _ _
          · exact List.mem_cons_of_mem a (mem_dropTrailDash (hr ▸ hm))

theorem dropTrailDash_getLast : ∀ l : List Char,
    (dropTrailDash l).getLast? ≠ some '-'
  | [] => by simp [dropTrailDash]
  | a :: rest => by
      rw [dropTrailDash]
      cases hr : dropTrailDash rest with
      | nil =>
          by_cases h : a = '-'
          · simp [h]
          · simp [h]
      | cons b t =>
          have := dropTrailDash_getLast rest
          rw [hr] at this
          rwa [List.getLast?_cons_cons]

theorem dropTrailDash_head : ∀ l : List Char,
    dropTrailDash l = [] ∨ (dropTrailDash l).head? = l.head?
  | [] => Or.inl rfl
  | a :: rest => by
      rw [dropTrailDash]
      cases hr : dropTrailDash rest with
      | nil =>
          by_cases h : a = '-'
          · simp [h]
          · simp [h]
      | cons b t => simp

theorem hasDoubleDash_dropTrailDash : ∀ {l : List Char},
    hasDoubleDash l = false → hasDoubleDash (dropTrailDash l) = false
  | [] => fun _ => rfl
  | a :: rest => fun h => by
      rw [dropTrailDash]
      cases hr : dropTrailDash rest with
      | nil =>
          by_cases ha : a = '-'
          · simp [ha, hasDoubleDash]
          · simp [ha, hasDoubleDash]
      | cons b t =>
          have htail := hasDoubleDash_dropTrailDash (hasDoubleDash_tail h)
          rw [hr] at htail
          rcases dropTrailDash_head rest with hnil | hhead
          · rw [hnil] at hr; cases hr
          · rw [hr] at hhead
            cases rest with
            | nil => cases hr
            | cons b' t' =>
                have hb : b = b' := by simpa using hhead
                subst hb
                rw [hasDoubleDash, Bool.or_eq_false_iff]
                refine ⟨?_, htail⟩
                rw [hasDoubleDash, Bool.or_eq_false_iff] at h
                exact h.1

theorem dropTrailDash_of_getLast : ∀ {l : List Char},
    l.getLast? ≠ some '-' → dropTrailDash l = l
  | [] => fun _ => rfl
  | a :: rest => fun h => by
      cases rest with
      | nil =>
          have ha : a ≠ '-' := by
            intro hc
            exact h (by rw [hc]; rfl)
          rw [dropTrailDash, dropTrailDash]
          simp [ha]
      | cons b t =>
          have h2 : (b :: t : List Char).getLast? ≠ some '-' := by
            rwa [List.getLast?_cons_cons] at h
          have := dropTrailDash_of_getLast h2
          rw [dropTrailDash, this]

theorem hasDoubleDash_take : ∀ (n : Nat) {l : List Char},
    hasDoubleDash l = false → hasDoubleDash (l.take n) = false := by
  intro n l
  induction l generalizing n with
  | nil => intro _; simp [hasDoubleDash]
  | cons a rest ih =>
      intro h
      cases n with
      | zero => rfl
      | succ m =>
          rw [List.take_succ_cons]
          cases rest with
          | nil => simp [hasDoubleDash]
          | cons b t =>
              cases m with
              | zero => rfl
              | succ k =>
                  rw [List.take_succ_cons]
                  rw [hasDoubleDash, Bool.or_eq_false_iff] at h ⊢
                  refine ⟨h.1, ?_⟩
                  have := ih (k + 1) h.2
                  rwa [List.take_succ_cons] at this

theorem toLower_of_allowed {c : Char} (h : allowedChar c = true) :
    Char.toLower c = c := by
  simp only [allowedChar, Bool.or_eq_true, Bool.and_eq_true,
    decide_eq_true_eq] at h
  rw [Char.toLower, if_neg (by rcases h with ((⟨h1, h2⟩ | ⟨h1, h2⟩) | h1) <;> omega)]

theorem slashToDash_of_allowed {c : Char} (h : allowedChar c = true) :
    slashToDash c = c := by
  by_cases hc : c = '/'
  · subst hc
    exact absurd h (by decide)
  · rw [slashToDash, if_neg hc]

theorem subDash_of_allowed {c : Char} (h : allowedChar c = true) :
    subDash c = c := by
  rw [subDash, if_pos h]

theorem allowedChar_subDash (c : Char) : allowedChar (subDash c) = true := by
  rw [subDash]
  by_cases h : allowedChar c = true
  · rwa [if_pos h]
  · rw [if_neg h]
    decide

theorem map_fix {f : Char → Char} : ∀ {l : List Char},
    (∀ c ∈ l, f c = c) → l.map f = l
  | [] => fun _ => rfl
  | c :: rest => fun h => by
      rw [List.map_cons, h c (List.mem_cons_self _ _),
        map_fix (fun d hd => h d (List.mem_cons_of_mem _ hd))]

theorem head?_take_pos {l : List Char} {n : Nat} (h : 0 < n) :
    (l.take n).head? = l.head? := by
  cases l with
  | nil => simp
  | cons a rest =>
      cases n with
      | zero => omega
      | succ m => rw [List.take_succ_cons]; rfl

/-- The strip-and-collapse core of `slugify`, before the final truncation. -/
def slugCore (s : String) : List Char :=
  dropTrailDash (dropLeadDash
    (collapseDash (((s.data.map Char.toLower).map slashToDash).map subDash)))

theorem slugify_data (s : String) : (slugify s).data = (slugCore s).take 40 := rfl

theorem slugCore_allowed (s : String) : ∀ c ∈ slugCore s, allowedChar c = true := by
  intro c hc
  have h1 := mem_dropLeadDash (mem_dropTrailDash hc)
  have h2 := mem_collapseDash h1
  rcases List.mem_map.mp h2 with ⟨d, _, rfl⟩
  exact allowedChar_subDash d

theorem slugCore_head (s : String) : (slugCore s).head? ≠ some '-' := by
  rw [slugCore]
  rcases dropTrailDash_head (dropLeadDash
      (collapseDash (((s.data.map Char.toLower).map slashToDash).map subDash)))
    with hnil | hhead
  · rw [hnil]
    simp
  · rw [hhead]
    exact dropLeadDash_head _

theorem slugCore_noDoubleDash (s : String) :
    hasDoubleDash (slugCore s) = false :=
  hasDoubleDash_dropTrailDash (hasDoubleDash_dropLeadDash
    (hasDoubleDash_collapseDash _))

theorem slugCore_getLast (s : String) : (slugCore s).getLast? ≠ some '-' :=
  dropTrailDash_getLast _

/-- C5, amended: every `slugify` output is at most 40 characters, drawn
from `[a-z0-9-]`, with no leading and no doubled hyphen; outputs shorter
than 40 characters also have no trailing hyphen, and `slugify` is
idempotent on every output without a trailing hyphen.  (Truncation to 40
characters happens after hyphen stripping, so it can cut directly after
a hyphen; such outputs end in `-` and are not fixed points — see the
counterexample.) -/
theorem slugify_props (s : String) :
    (slugify s).length ≤ 40 ∧
    (∀ c ∈ (slugify s).data, allowedChar c = true) ∧
    (slugify s).data.head? ≠ some '-' ∧
    hasDoubleDash (slugify s).data = false ∧
    ((slugify s).length < 40 → (slugify s).data.getLast? ≠ some '-') ∧
    ((slugify s).data.getLast? ≠ some '-' → slugify (slugify s) = slugify s) := by
  have hlen : (slugify s).length = ((slugCore s).take 40).length := by
    rw [String.length, slugify_data]
  refine ⟨?_, ?_, ?_, ?_, ?_, ?_⟩
  · rw [hlen, List.length_take]
    omega
  · intro c hc
    rw [slugify_data] at hc
    exact slugCore_allowed s c (List.mem_of_mem_take hc)
  · rw [slugify_data, head?_take_pos (by omega)]
    exact slugCore_head s
  · rw [slugify_data]
    exact hasDoubleDash_take 40 (slugCore_noDoubleDash s)
  · intro hshort
    rw [hlen, List.length_take] at hshort
    have hcore : (slugCore s).length ≤ 40 := by omega
    rw [slugify_data, List.take_of_length_le hcore]
    exact slugCore_getLast s
  · intro htrail
    have hfix : ∀ c ∈ (slugify s).data, allowedChar c = true := by
      intro c hc
      rw [slugify_data] at hc
      exact slugCore_allowed s c (List.mem_of_mem_take hc)
    have h1 : (slugify s).data.map Char.toLower = (slugify s).data :=
      map_fix fun c hc => toLower_of_allowed (hfix c hc)
    have h2 : (slugify s).data.map slashToDash = (slugify s).data :=
      map_fix fun c hc => slashToDash_of_allowed (hfix c hc)
    have h3 : (slugify s).data.map subDash = (slugify s).data :=
      map_fix fun c hc => subDash_of_allowed (hfix c hc)
    have hdd : hasDoubleDash (slugify s).data = false := by
      rw [slugify_data]
      exact hasDoubleDash_take 40 (slugCore_noDoubleDash s)
    have hhead : (slugify s).data.head? ≠ some '-' := by
      rw [slugify_data, head?_take_pos (by omega)]
      exact slugCore_head s
    have hlen40 : (slugify s).data.length ≤ 40 := by
      rw [slugify_data, List.length_take]
      omega
    show ((dropTrailDash (dropLeadDash (collapseDash
      ((((slugify s).data.map Char.toLower).map slashToDash).map subDash)))).take
        40).asString = slugify s
    rw [h1, h2, h3, collapseDash_of_noDoubleDash hdd, dropLeadDash_of_head hhead,
      dropTrailDash_of_getLast htrail, List.take_of_length_le hlen40]
    exact String.ext rfl

/-- C5, counterexample to the claim as stated: the 41-character branch
name of 39 `a`s followed by `-x` slugifies to 39 `a`s followed by a
hyphen — a trailing hyphen — and applying `slugify` again strips that
hyphen, so `slugify` is not idempotent-on-output. -/
theorem slugify_not_idempotent :
    (slugify ⟨List.replicate 39 'a' ++ ['-', 'x']⟩).data.getLast? = some '-' ∧
    slugify (slugify ⟨List.replicate 39 'a' ++ ['-', 'x']⟩) ≠
      slugify ⟨List.replicate 39 'a' ++ ['-', 'x']⟩ := by
  constructor
  · decide
  · decide

/-- C5 witness: the amended theorem applied at a concrete branch name. -/
theorem slugify_props_witness :
    (slugify "feature/Auth Flow").data.getLast? ≠ some '-' ∧
    slugify (slugify "feature/Auth Flow") = slugify "feature/Auth Flow" :=
  ⟨by decide, (slugify_props "feature/Auth Flow").2.2.2.2.2 (by decide)⟩

/-! ## Claim C1: no State-Store mutation on pre-persist failure -/

theorem step_cases {α : Type} (P : Except String Unit × State × List Event → Prop)
    (r : Except String α) (st : State) (evs : List Event)
    (k : α → Except String Unit × State × List Event)
    (herr : ∀ e, P (.error e, st, evs)) (hok : ∀ a, P (k a)) :
    P (step r st evs k) := by
  cases r with
  | error e => exact herr e
  | ok a => exact hok a

theorem savedStates_append (l1 l2 : List Event) :
    savedStates (l1 ++ l2) = savedStates l1 ++ savedStates l2 :=
  List.filterMap_append l1 l2 _

theorem savedStates_remoteNoticeEvents (rn : Option String) :
    savedStates (remoteNoticeEvents rn) = [] := by
  cases rn <;> rfl

/-- A run that left the store untouched: the in-memory state is the input
state, nothing was written to the state file, and the run raised. -/
def noMutation (st : State) (out : Except String Unit × State × List Event) :
    Prop :=
  out.2.1 = st ∧ savedStates out.2.2 = [] ∧ ∃ e, out.1 = Except.error e

/-- C1: a `launch` step failing before the orbit record is persisted
leaves the State Store unmutated — no orbit added, no state file written
— and the external tool's diagnostic is the fatal error verbatim.  In
this code every run in fact fails before `save_state` (the
`planet.sync_untracked` read of src/orbit/session.py line 78 always
raises, see C7), so the first three conjuncts hold for every run; the
last two show, for branch detection and worktree creation, that the
failing tool's message is preserved verbatim as the fatal error. -/
theorem launch_prepersist_failure (env : LaunchEnv)
    (branch? name? base? : Option String) (st : State) :
    (launch env branch? name? base? st).2.1 = st ∧
    savedStates (launch env branch? name? base? st).2.2 = [] ∧
    (∃ e, (launch env branch? name? base? st).1 = .error e) ∧
    (∀ planet m, env.detect_planet = .ok planet → branch? = none →
      env.detect_branch = .error m →
      (launch env branch? name? base? st).1 = .error m) ∧
    (∀ planet branch remote rnotice orbit_name m,
      env.detect_planet = .ok planet →
      (match branch? with | some b => Except.ok b | none => env.detect_branch) =
        .ok branch →
      env.choose_remote = .ok (remote, rnotice) →
      launchNameResolve name? env.session_exists st (slugify branch) =
        .ok orbit_name →
      env.mkdir_base = .ok () →
      env.create_worktree (worktreePathOf planet orbit_name) branch remote
        (resolvedBase env (isNewBranch env branch remote) base? remote) =
        .error m →
      (launch env branch? name? base? st).1 = .error m) := by
  have core : noMutation st (launch env branch? name? base? st) := by
    unfold launch
    refine step_cases (noMutation st) _ _ _ _ (fun e => ⟨rfl, rfl, e, rfl⟩)
      fun planet => ?_
    refine step_cases (noMutation st) _ _ _ _ (fun e => ⟨rfl, rfl, e, rfl⟩)
      fun branch => ?_
    refine step_cases (noMutation st) _ _ _ _ (fun e => ⟨rfl, rfl, e, rfl⟩)
      fun rp => ?_
    refine step_cases (noMutation st) _ _ _ _
      (fun e => ⟨rfl, savedStates_remoteNoticeEvents rp.2, e, rfl⟩)
      fun orbit_name => ?_
    refine step_cases (noMutation st) _ _ _ _
      (fun e => ⟨rfl, savedStates_remoteNoticeEvents rp.2, e, rfl⟩) fun _ => ?_
    refine step_cases (noMutation st) _ _ _ _ (fun e => ⟨rfl, ?_, e, rfl⟩)
      fun _ => ?_
    · split <;> split <;>
        simp only [savedStates_append, savedStates_remoteNoticeEvents] <;>
        simp [savedStates]
    · simp only [Planet.sync_untracked_read, step]
      refine ⟨rfl, ?_, _, rfl⟩
      split <;> split <;>
        simp only [savedStates_append, savedStates_remoteNoticeEvents] <;>
        simp [savedStates]
  refine ⟨core.1, core.2.1, core.2.2, ?_, ?_⟩
  · intro planet m hdp hbn hdb
    subst hbn
    simp [launch, step, hdp, hdb]
  · intro planet branch remote rnotice orbit_name m hdp hbr hcr hnm hmk hcw
    simp only [launch, step, hdp, hbr, hcr, hnm, hmk, hcw]

/-- A planet record as the configuration loader would build it. -/
def planet0 : Planet :=
  { name := "My App", path := "/home/user/projects/myapp",
    worktree_base := "/home/user/projects", env := [], windows := [] }

/-- A launch environment in which every external call succeeds. -/
def envAllOk : LaunchEnv :=
  { detect_planet := .ok planet0,
    detect_branch := .ok "feat",
    choose_remote := .ok (none, none),
    session_exists := fun _ => false,
    mkdir_base := .ok (),
    has_uncommitted_changes := false,
    branch_exists_locally := fun _ => true,
    remote_branch_exists := fun _ _ => false,
    detect_default_branch := fun _ => none,
    create_worktree := fun _ _ _ _ => .ok (),
    sync_untracked_to_worktree := fun _ => .ok [],
    new_session := fun _ _ => .ok (),
    tmux_set_option := fun _ _ _ => .ok (),
    tmux_set_environment := fun _ _ _ => .ok (),
    setup_windows := .ok (),
    inside_tmux := true,
    switch_client := fun _ => .ok (),
    now := 0 }

/-- A launch environment in which only `git worktree add` fails. -/
def envWorktreeFails : LaunchEnv :=
  { envAllOk with
    create_worktree := fun _ _ _ _ => Except.error "fatal: not a git repository" }

/-- C1 witness: a concrete run in which `git worktree add` fails; the
fatal error carries git's diagnostic verbatim, the state is unchanged and
nothing was written. -/
theorem launch_prepersist_failure_witness :
    (launch envWorktreeFails (some "feat") (some "demo") none ⟨[]⟩).1 =
        .error "fatal: not a git repository" ∧
    (launch envWorktreeFails (some "feat") (some "demo") none ⟨[]⟩).2.1 = ⟨[]⟩ ∧
    savedStates
      (launch envWorktreeFails (some "feat") (some "demo") none ⟨[]⟩).2.2 = [] := by
  have h := launch_prepersist_failure envWorktreeFails
    (some "feat") (some "demo") none ⟨[]⟩
  exact ⟨h.2.2.2.2 planet0 "feat" none none "demo" "fatal: not a git repository"
    rfl rfl rfl (by rfl) rfl rfl, h.1, h.2.1⟩

/-- An `Orbit` record as `launch` would build it. -/
def mkOrbit (nm planet branch wt : String) : Orbit :=
  { name := nm, planet := planet, branch := branch, worktree := wt,
    tmux_session := nm, ports := [], created_at := 0 }

/-! ## Claim C7: the `planet.sync_untracked` read -/

/-- C7 (code bug): even with every external call succeeding, `launch`
dies at `patterns = planet.sync_untracked` (src/orbit/session.py line 78)
with an `AttributeError`, because `Planet` (src/orbit/models.py lines
21-31) declares no `sync_untracked` field — the repository's own tests
(src/tests/test_models.py lines 45-51, src/tests/test_session.py line
181) and the spec instead expect the field with default `None` meaning
the dotfiles-only pattern set.  The mirroring step and everything after
it is unreachable, and no state is persisted. -/
theorem launch_fails_reading_sync_untracked :
    launch envAllOk (some "feat") (some "demo") none ⟨[]⟩ =
      (.error ("AttributeError: " ++ quoted "Planet" ++
          " object has no attribute " ++ quoted "sync_untracked"), ⟨[]⟩,
        [Event.mkdir "/home/user/projects/myapp.wt",
         Event.createWorktree "/home/user/projects/myapp.wt/demo" "feat"]) := by
  rfl

/-! ## Claim C3: explicit-name collisions are rejected before creation -/

/-- C3: an explicit launch name that already keys an Orbit in the State
is rejected before any worktree or session is created: with the
"already exists" error when a live tmux session with that name exists,
and with the distinct "stale" error when none does; in both cases the
state is unchanged and the trace holds at most the remote notice — no
creation event and no state write. -/
theorem launch_name_collision (env : LaunchEnv) (branch? base? : Option String)
    (st : State) (nm : String) (orb : Orbit) (planet : Planet) (branch : String)
    (remote rnotice : Option String)
    (hget : st.get nm = some orb)
    (hdp : env.detect_planet = .ok planet)
    (hbr : (match branch? with
            | some b => Except.ok b
            | none => env.detect_branch) = .ok branch)
    (hcr : env.choose_remote = .ok (remote, rnotice)) :
    (env.session_exists nm = true →
      launch env branch? (some nm) base? st =
        (.error (already_exists_error nm), st, remoteNoticeEvents rnotice)) ∧
    (env.session_exists nm = false →
      launch env branch? (some nm) base? st =
        (.error (stale_error nm), st, remoteNoticeEvents rnotice)) ∧
    (remoteNoticeEvents rnotice).all (fun e => !e.isCreation) = true ∧
    savedStates (remoteNoticeEvents rnotice) = [] := by
  refine ⟨?_, ?_, ?_, savedStates_remoteNoticeEvents rnotice⟩
  · intro hs
    simp only [launch, step, hdp, hbr, hcr]
    simp [launchNameResolve, hget, hs, step]
  · intro hs
    simp only [launch, step, hdp, hbr, hcr]
    simp [launchNameResolve, hget, hs, step]
  · cases rnotice <;> simp [remoteNoticeEvents, Event.isCreation]

/-- The State holding exactly one orbit, named `feat`. -/
def stFeat : State := ⟨[("feat", mkOrbit "feat" "myapp" "feat" "/wt/feat")]⟩

/-- A launch environment whose session probe reports every name live. -/
def envLive : LaunchEnv := { envAllOk with session_exists := fun _ => true }

/-- C3 witness: launching with the explicit name `feat` against a state
holding a `feat` record backed by a live session is rejected with the
"already exists" error and an empty trace. -/
theorem launch_name_collision_witness :
    launch envLive (some "feat") (some "feat") none stFeat =
      (.error (already_exists_error "feat"), stFeat, []) := by
  have h := launch_name_collision envLive (some "feat") none stFeat "feat"
    (mkOrbit "feat" "myapp" "feat" "/wt/feat") planet0 "feat" none none
    rfl rfl rfl rfl
  simpa [remoteNoticeEvents] using h.1 rfl

/-! ## Claim C4: default naming and auto-numbering in the unnamed path -/

theorem autoNumberName_spec (st : State) (slug : String) :
    ∃ N, 2 ≤ N ∧ autoNumberName st slug = numberedName slug N ∧
      st.get (numberedName slug N) = none ∧
      ∀ m, 2 ≤ m → m < N → (st.get (numberedName slug m)).isSome := by
  obtain ⟨m, hm1, hm2, hm3⟩ := exists_free_numberedName st slug
  have htot := findFreeN_total st slug (st.orbits.length + 1) 2
    ⟨m, hm1, by omega, hm3⟩
  obtain ⟨N, hN⟩ := Option.isSome_iff_exists.mp htot
  obtain ⟨h1, h2, h3⟩ := findFreeN_spec st slug _ _ _ hN
  exact ⟨N, h1, by rw [autoNumberName, hN], h2, fun k hk1 hk2 => h3 k hk1 hk2⟩

/-- C4: in the unnamed launch path the orbit name defaults to the branch
slug when that name is free, and otherwise to `slug-N` for the least
`N ≥ 2` whose name is not a key of the State; concretely, with existing
orbits `{feat}` and branch `feat` the resolved name is `feat-2` and a
further launch resolves `feat-3`; an explicit name is never auto-numbered. -/
theorem launch_auto_numbering (st : State) (branch_slug : String)
    (sess : String → Bool) :
    (st.get branch_slug = none →
      launchNameResolve none sess st branch_slug = .ok branch_slug) ∧
    ((st.get branch_slug).isSome →
      ∃ N, 2 ≤ N ∧
        launchNameResolve none sess st branch_slug =
          .ok (numberedName branch_slug N) ∧
        st.get (numberedName branch_slug N) = none ∧
        (∀ m, 2 ≤ m → m < N → (st.get (numberedName branch_slug m)).isSome)) ∧
    (∀ nm, st.get nm = none →
      launchNameResolve (some nm) sess st branch_slug = .ok nm) ∧
    launchNameResolve none sess stFeat "feat" = .ok "feat-2" ∧
    launchNameResolve none sess
      (stFeat.add (mkOrbit "feat-2" "myapp" "feat" "/wt/feat-2")) "feat" =
        .ok "feat-3" := by
  refine ⟨?_, ?_, ?_, by rfl, by rfl⟩
  · intro hget
    simp [launchNameResolve, hget]
  · intro hget
    obtain ⟨N, h1, h2, h3, h4⟩ := autoNumberName_spec st branch_slug
    refine ⟨N, h1, ?_, h3, h4⟩
    simp [launchNameResolve, hget, h2]
  · intro nm hget
    simp [launchNameResolve, hget]

/-- C4 witness: the theorem applied at an empty state (slug stays) and at
`stFeat` with a fresh explicit name (never auto-numbered). -/
theorem launch_auto_numbering_witness :
    launchNameResolve none (fun _ => false) ⟨[]⟩ "feat" = .ok "feat" ∧
    launchNameResolve (some "demo") (fun _ => false) stFeat "feat" = .ok "demo" :=
  ⟨(launch_auto_numbering ⟨[]⟩ "feat" (fun _ => false)).1 rfl,
   (launch_auto_numbering stFeat "feat" (fun _ => false)).2.2.1 "demo" rfl⟩

/-! ## Claim C2: destroy always completes its bookkeeping -/

theorem destroyRemovePhase_fails {orb : Orbit} {env : DestroyEnv} {em : String}
    (h : env.get_main_repo_path = .error em ∨
      ∃ repo, env.get_main_repo_path = .ok repo ∧
        env.remove_worktree repo orb.worktree = .error em) :
    destroyRemovePhase orb env = [.echo (remove_warning em)] := by
  rcases h with h | ⟨repo, h1, h2⟩
  · simp [destroyRemovePhase, h]
  · simp [destroyRemovePhase, h1, h2]

/-- C2: for a name present in the State (with the confirmation accepted
when the worktree is dirty), `destroy` removes the Orbit from the State
and persists even when the recorded worktree path is gone from disk
(skipped with a notice) and when worktree removal fails (downgraded to a
warning echo); a name absent from the State is fatal and mutates
nothing. -/
theorem destroy_cleans_state (st : State) (nm : String) (env : DestroyEnv) :
    (st.get nm = none →
      destroy nm st env = (.error (no_orbit_error nm), st, [])) ∧
    (∀ orb, st.get nm = some orb →
      (env.session_exists = true → env.kill_session = .ok ()) →
      (env.worktree_exists = false →
        destroy nm st env =
          (.ok (), st.remove nm,
            (if env.session_exists then [Event.killSession nm] else []) ++
              [.echo (worktree_missing_msg orb),
               .saveState (st.remove nm), .echo ("Destroyed " ++ nm)])) ∧
      (∀ em, env.worktree_exists = true →
        (env.has_uncommitted_changes = true → env.confirm_accepted = true) →
        (env.get_main_repo_path = .error em ∨
          ∃ repo, env.get_main_repo_path = .ok repo ∧
            env.remove_worktree repo orb.worktree = .error em) →
        destroy nm st env =
          (.ok (), st.remove nm,
            (if env.session_exists then [Event.killSession nm] else []) ++
              (if env.has_uncommitted_changes then
                [Event.confirmPrompt (confirm_msg orb)] else []) ++
              [.echo (remove_warning em),
               .saveState (st.remove nm), .echo ("Destroyed " ++ nm)]))) := by
  constructor
  · intro h
    simp [destroy, h]
  · intro orb hget hkill
    constructor
    · intro hwf
      cases hse : env.session_exists with
      | false => simp [destroy, destroyFinish, hget, hse, hwf]
      | true =>
          have hk := hkill hse
          simp [destroy, destroyFinish, hget, hse, hk, hwf]
    · intro em hwf hconf hfail
      have hrp : destroyRemovePhase orb env = [.echo (remove_warning em)] :=
        destroyRemovePhase_fails hfail
      cases hu : env.has_uncommitted_changes with
      | false =>
          cases hse : env.session_exists with
          | false => simp [destroy, destroyFinish, hget, hse, hwf, hu, hrp]
          | true =>
              have hk := hkill hse
              simp [destroy, destroyFinish, hget, hse, hk, hwf, hu, hrp]
      | true =>
          have hc := hconf hu
          cases hse : env.session_exists with
          | false => simp [destroy, destroyFinish, hget, hse, hwf, hu, hc, hrp]
          | true =>
              have hk := hkill hse
              simp [destroy, destroyFinish, hget, hse, hk, hwf, hu, hc, hrp]

/-- A destroy environment: live session, worktree gone from disk. -/
def envDestroyMissing : DestroyEnv :=
  { session_exists := true,
    kill_session := .ok (),
    worktree_exists := false,
    has_uncommitted_changes := false,
    confirm_accepted := true,
    get_main_repo_path := .ok "/wt",
    remove_worktree := fun _ _ => .ok () }

/-- C2 witness: destroying `feat` whose worktree directory no longer
exists still removes it from the State and persists, with the notice. -/
theorem destroy_cleans_state_witness :
    destroy "feat" stFeat envDestroyMissing =
      (.ok (), stFeat.remove "feat",
        [Event.killSession "feat",
         Event.echo (worktree_missing_msg (mkOrbit "feat" "myapp" "feat" "/wt/feat")),
         Event.saveState (stFeat.remove "feat"),
         Event.echo ("Destroyed " ++ "feat")]) := by
  have h := ((destroy_cleans_state stFeat "feat" envDestroyMissing).2
    (mkOrbit "feat" "myapp" "feat" "/wt/feat") rfl (fun _ => rfl)).1 rfl
  simpa [envDestroyMissing] using h

/-! ## Claim C10: destroy kills the session before the confirmation -/

/-- C10: when the session is live, the worktree exists with uncommitted
changes, and the user refuses the confirmation, `destroy` has already
killed the tmux session (the kill event strictly precedes the prompt in
the trace), then aborts leaving the State entry — and hence the worktree
— intact with nothing persisted: the orbit is left stale. -/
theorem destroy_kills_session_before_confirm (st : State) (nm : String)
    (orb : Orbit) (env : DestroyEnv)
    (hget : st.get nm = some orb) (hse : env.session_exists = true)
    (hk : env.kill_session = .ok ()) (hw : env.worktree_exists = true)
    (hu : env.has_uncommitted_changes = true) (hc : env.confirm_accepted = false) :
    destroy nm st env =
      (.error "Aborted!", st,
        [Event.killSession nm, Event.confirmPrompt (confirm_msg orb)]) ∧
    (destroy nm st env).2.1.get nm = some orb := by
  have h1 : destroy nm st env =
      (.error "Aborted!", st,
        [Event.killSession nm, Event.confirmPrompt (confirm_msg orb)]) := by
    simp [destroy, hget, hse, hk, hw, hu, hc]
  exact ⟨h1, by rw [h1]; exact hget⟩

/-- A destroy environment: live session, dirty worktree, refused prompt. -/
def envDestroyRefused : DestroyEnv :=
  { session_exists := true,
    kill_session := .ok (),
    worktree_exists := true,
    has_uncommitted_changes := true,
    confirm_accepted := false,
    get_main_repo_path := .ok "/wt",
    remove_worktree := fun _ _ => .ok () }

/-- C10 witness: refusing the prompt aborts with the session already
killed and the `feat` record still in the State. -/
theorem destroy_kills_session_before_confirm_witness :
    destroy "feat" stFeat envDestroyRefused =
      (.error "Aborted!", stFeat,
        [Event.killSession "feat",
         Event.confirmPrompt (confirm_msg (mkOrbit "feat" "myapp" "feat" "/wt/feat"))]) ∧
    (destroy "feat" stFeat envDestroyRefused).2.1.get "feat" =
      some (mkOrbit "feat" "myapp" "feat" "/wt/feat") :=
  destroy_kills_session_before_confirm stFeat "feat"
    (mkOrbit "feat" "myapp" "feat" "/wt/feat") envDestroyRefused
    rfl rfl rfl rfl rfl rfl

/-! ## Claim C6: untracked-dotfile mirroring with pattern `.*` -/

/-- C6 (code bug): with the pattern list `[".*"]` an untracked dotfile at
the repository root is mirrored — but an untracked dotfile under a plain
(non-dot) parent directory is mirrored too, because the matching loop of
`sync_untracked_to_worktree` checks every candidate from the shallowest
ancestor down to the file itself, and the file's own basename `.env`
matches `.*` (src/orbit/worktree.py lines 232-239; the docstring even
says "Matching on the basename means .* catches dotfiles at any depth").
The repository's own tests `test_name_pattern_does_not_match_nested_dotfile`
and `test_wildcard_does_not_sync_dot_directory` (src/tests/test_worktree.py
lines 325-335 and 364-376) require the opposite, as the claim states.
The third conjunct shows the related divergence: a dot-directory is
mirrored wholesale by `.*`. -/
theorem sync_untracked_nested_dotfile_mirrored :
    sync_untracked_to_worktree [[".env"]] [".*"] (fun _ => false) = [[".env"]] ∧
    sync_untracked_to_worktree [["packages", "api", ".env"]] [".*"]
      (fun _ => false) = [["packages", "api", ".env"]] ∧
    sync_untracked_to_worktree [[".pnpm-store", "hash", "pkg.js"]] [".*"]
      (fun _ => false) = [[".pnpm-store"]] :=
  ⟨by decide, by decide, by decide⟩

/-! ## Claim C8: the port allocator -/

theorem probePort_spec (avail : Nat → Bool) (in_use : List Nat) :
    ∀ (fuel cand c : Nat), probePort avail in_use fuel cand = some c →
      cand ≤ c ∧ c ∉ in_use ∧ avail c = true := by
  intro fuel
  induction fuel with
  | zero => simp [probePort]
  | succ f ih =>
      intro cand c h
      rw [probePort] at h
      by_cases hc : (decide (cand ∈ in_use) || !avail cand) = true
      · rw [if_pos hc] at h
        obtain ⟨h1, h2, h3⟩ := ih (cand + 1) c h
        exact ⟨by omega, h2, h3⟩
      · rw [if_neg hc] at h
        rw [Option.some.injEq] at h
        subst h
        simp only [Bool.or_eq_true, decide_eq_true_eq, Bool.not_eq_true',
          not_or] at hc
        push_neg at hc
        exact ⟨le_rfl, hc.1, by simpa using hc.2⟩

theorem mem_dict_set {α β : Type} [DecidableEq α] {l : List (α × β)} {k : α}
    {v : β} {p : α × β} (h : p ∈ dict_set l k v) : p = (k, v) ∨ p ∈ l := by
  induction l with
  | nil => simpa [dict_set] using h
  | cons q rest ih =>
      obtain ⟨k', v'⟩ := q
      rw [dict_set] at h
      by_cases hk : k' = k
      · rw [if_pos hk] at h
        rcases List.mem_cons.mp h with rfl | h2
        · exact Or.inl rfl
        · exact Or.inr (List.mem_cons_of_mem _ h2)
      · rw [if_neg hk] at h
        rcases List.mem_cons.mp h with rfl | h2
        · exact Or.inr (List.mem_cons_self _ _)
        · rcases ih h2 with h3 | h3
          · exact Or.inl h3
          · exact Or.inr (List.mem_cons_of_mem _ h3)

theorem map_snd_dict_set {α β : Type} [DecidableEq α] {l : List (α × β)}
    {k : α} {v x : β} (h : x ∈ (dict_set l k v).map Prod.snd) :
    x = v ∨ x ∈ l.map Prod.snd := by
  rcases List.mem_map.mp h with ⟨p, hp, rfl⟩
  rcases mem_dict_set hp with rfl | hpl
  · exact Or.inl rfl
  · exact Or.inr (List.mem_map_of_mem _ hpl)

theorem nodup_map_snd_dict_set {α β : Type} [DecidableEq α] {l : List (α × β)}
    {k : α} {v : β} (hn : (l.map Prod.snd).Nodup) (hv : v ∉ l.map Prod.snd) :
    ((dict_set l k v).map Prod.snd).Nodup := by
  induction l with
  | nil => simp [dict_set]
  | cons q rest ih =>
      obtain ⟨k', v'⟩ := q
      rw [List.map_cons, List.nodup_cons] at hn
      simp only [List.map_cons, List.mem_cons, not_or] at hv
      rw [dict_set]
      by_cases hk : k' = k
      · rw [if_pos hk, List.map_cons, List.nodup_cons]
        exact ⟨hv.2, hn.2⟩
      · rw [if_neg hk, List.map_cons, List.nodup_cons]
        constructor
        · intro hmem
          rcases map_snd_dict_set hmem with h | h
          · exact hv.1 h.symm
          · exact hn.1 h
        · exact ih hn.2 hv.2

theorem assign_ports_go_spec (avail : Nat → Bool) (fuel : Nat)
    (claimed : List Nat) :
    ∀ (declared : List Nat) (in_use : List Nat) (assigned m : List (Nat × Nat)),
      (∀ c ∈ claimed, c ∈ in_use) →
      (∀ x ∈ assigned.map Prod.snd, x ∈ in_use) →
      (assigned.map Prod.snd).Nodup →
      (∀ p ∈ assigned, p.1 ≤ p.2 ∧ p.2 ∉ claimed) →
      assign_ports_go avail fuel declared in_use assigned = some m →
      (m.map Prod.snd).Nodup ∧ (∀ p ∈ m, p.1 ≤ p.2) ∧
        (∀ p ∈ m, p.2 ∉ claimed) := by
  intro declared
  induction declared with
  | nil =>
      intro in_use assigned m h1 h2 h3 h4 h5
      rw [assign_ports_go, Option.some.injEq] at h5
      subst h5
      exact ⟨h3, fun p hp => (h4 p hp).1, fun p hp => (h4 p hp).2⟩
  | cons port rest ih =>
      intro in_use assigned m h1 h2 h3 h4 h5
      rw [assign_ports_go] at h5
      cases hpr : probePort avail in_use fuel port with
      | none => rw [hpr] at h5; cases h5
      | some cand =>
          rw [hpr] at h5
          obtain ⟨hc1, hc2, hc3⟩ := probePort_spec avail in_use fuel port cand hpr
          apply ih (cand :: in_use) (dict_set assigned port cand) m
          · intro c hc
            exact List.mem_cons_of_mem _ (h1 c hc)
          · intro x hx
            rcases map_snd_dict_set hx with rfl | hx2
            · exact List.mem_cons_self _ _
            · exact List.mem_cons_of_mem _ (h2 x hx2)
          · exact nodup_map_snd_dict_set h3 (fun hmem => hc2 (h2 _ hmem))
          · intro p hp
            rcases mem_dict_set hp with rfl | hp2
            · exact ⟨hc1, fun hcl => hc2 (h1 _ hcl)⟩
            · exact h4 p hp2
          · exact h5

/-- C8: whenever `assign_ports` returns (the probe loop is unbounded in
the source, so the fuel-conditioned return models termination), the
returned mapping — for any declared port list, claimed set, and
availability predicate — has pairwise distinct values, each value at
least its declared port, and no value in the claimed set. -/
theorem assign_ports_spec (declared claimed : List Nat) (avail : Nat → Bool)
    (fuel : Nat) (m : List (Nat × Nat))
    (h : assign_ports declared claimed avail fuel = some m) :
    (m.map Prod.snd).Nodup ∧ (∀ p ∈ m, p.1 ≤ p.2) ∧
      (∀ p ∈ m, p.2 ∉ claimed) :=
  assign_ports_go_spec avail fuel claimed declared claimed [] m
    (fun _ hc => hc) (by simp) (by simp) (by simp) h

/-- C8 witness: two identical declared ports and a claimed neighbour;
the allocator returns distinct assignments at or above the declared
ports, avoiding the claimed one. -/
theorem assign_ports_spec_witness :
    (([(3000, 3002), (3001, 3003)] : List (Nat × Nat)).map Prod.snd).Nodup ∧
    ((3000 : Nat) ≤ 3002 ∧ (3001 : Nat) ≤ 3003) ∧
    ((3002 : Nat) ∉ [3001] ∧ (3003 : Nat) ∉ [3001]) := by
  have h := assign_ports_spec [3000, 3000, 3001] [3001] (fun _ => true) 10
    [(3000, 3002), (3001, 3003)] (by decide)
  exact ⟨h.1, ⟨h.2.1 (3000, 3002) (by simp), h.2.1 (3001, 3003) (by simp)⟩,
    ⟨h.2.2 (3000, 3002) (by simp), h.2.2 (3001, 3003) (by simp)⟩⟩

/-! ## Claim C9: the key-equals-name invariant of the State -/

theorem mem_dict_pop {α β : Type} [DecidableEq α] {l : List (α × β)} {k : α}
    {p : α × β} (h : p ∈ dict_pop l k) : p ∈ l := by
  induction l with
  | nil => simp [dict_pop] at h
  | cons q rest ih =>
      obtain ⟨k', v'⟩ := q
      rw [dict_pop] at h
      by_cases hk : k' = k
      · rw [if_pos hk] at h
        exact List.mem_cons_of_mem _ h
      · rw [if_neg hk] at h
        rcases List.mem_cons.mp h with rfl | h2
        · exact List.mem_cons_self _ _
        · exact List.mem_cons_of_mem _ (ih h2)

/-- C9, amended: the key-equals-name invariant holds in the empty state,
is preserved by every `add` and `remove`, and by loading back a file
that `save_state` wrote — but `load_state` itself does not establish it
on arbitrary files (see the counterexample: it stores each record under
the file's key while keeping the record's own `name` field). -/
theorem state_produced_keys_match (st : State) (h : StateProduced st) :
    keys_match st = true := by
  induction h with
  | empty => rfl
  | add st o hst ih =>
      simp only [keys_match, State.add, List.all_eq_true] at ih ⊢
      intro p hp
      rcases mem_dict_set hp with rfl | hp2
      · simp
      · exact ih p hp2
  | remove st n hst ih =>
      simp only [keys_match, State.remove, List.all_eq_true] at ih ⊢
      intro p hp
      exact ih p (mem_dict_pop hp)
  | load_saved st hst ih => exact ih

/-- C9 counterexample: a schema-valid state file whose key `a` stores a
record named `b` loads without complaint into a `State` violating the
invariant. -/
theorem load_state_breaks_invariant :
    keys_match (load_state [("a", mkOrbit "b" "myapp" "main" "/wt/b")]) =
      false := by
  decide

/-- C9 witness: the amended theorem applied to a concrete
add-then-remove-then-reload history. -/
theorem state_produced_keys_match_witness :
    keys_match (load_state (save_state_file
      (State.add ⟨[]⟩ (mkOrbit "feat" "myapp" "feat" "/wt/feat")))) = true :=
  state_produced_keys_match _
    (StateProduced.load_saved _ (StateProduced.add _ _ StateProduced.empty))

end OrbitSpec
